import Mathlib

/-!
Verification of the ProductTree documentation-site search subsystem.

The development shallowly embeds the two components of the repository that
the specification covers:

- the build-time search index builder (the searchIndex map in
  src/pages/search-index.json.js, duplicated in the repository snapshot
  inside BaseLayout.astro and unnamed/part_004), and
- the browser-side Search Client (initializeSearch, search, the input
  debounce listener and the focus listener of the Search component).

Strings are modelled at the level of character lists; JavaScript string
operations (slice, replace, trim, split, toLowerCase, toUpperCase) are
given explicit executable counterparts.  The case conversions are modelled
for the ASCII alphabet, which is the alphabet these functions are applied
to in this code base.
-/

namespace ProductTree

/-- JavaScript whitespace for String.prototype.trim, restricted to the
characters that can occur here: space, tab, line feed, carriage return,
vertical tab, form feed and no-break space. -/
def isJsWhitespace (c : Char) : Bool :=
  c = ' ' || c = '\t' || c = '\n' || c = '\r' || c = '\x0b' || c = '\x0c' ||
  c = Char.ofNat 160

/-- Model of String.prototype.trim: drop surrounding whitespace. -/
def jsTrim (l : List Char) : List Char :=
  ((l.dropWhile isJsWhitespace).reverse.dropWhile isJsWhitespace).reverse

/-- The characters removed by the excerpt computation: the regular
expression character class containing the hash sign, the asterisk and the
backtick (Char.ofNat 96). -/
def isMarkupChar (c : Char) : Bool :=
  c = '#' || c = '*' || c = Char.ofNat 96

/-- Model of content.replace of the markup character class by the empty
string: every occurrence of the three characters is deleted. -/
def stripMarkup (l : List Char) : List Char :=
  l.filter (fun c => !(isMarkupChar c))

/-- Model of String.prototype.split with a single-character separator.
As in JavaScript, the result is never empty and splitting the empty string
yields one empty piece. -/
def splitOnChar (sep : Char) : List Char → List (List Char)
  | [] => [[]]
  | c :: cs =>
    let r := splitOnChar sep cs
    if c = sep then
      [] :: r
    else
      (c :: r.headD []) :: r.tail

/-- Model of word.charAt of index 0 followed by toUpperCase, concatenated
with word.slice of index 1: upper-case the first character (ASCII), keep
the rest. -/
def capitalizeChars : List Char → List Char
  | [] => []
  | c :: cs => c.toUpper :: cs

/-- The appName computation of the index builder, character level:
split the application path segment on the dash, capitalize each piece and
join the pieces with single spaces. -/
def appNameChars (l : List Char) : List Char :=
  List.intercalate [' '] ((splitOnChar '-' l).map capitalizeChars)

/-- String wrapper for `appNameChars`; this is the appName value computed
by the index builder from the first slug segment. -/
def appName (seg : String) : String :=
  ⟨appNameChars seg.data⟩

/-- The excerpt computation of the index builder, character level: take
the first 200 characters of the content, delete the markup characters,
trim surrounding whitespace and append three dots unconditionally. -/
def excerptChars (content : List Char) : List Char :=
  jsTrim (stripMarkup (content.take 200)) ++ "...".data

/-- A word character in the sense of the regular expression word boundary:
ASCII letter, ASCII digit or underscore. -/
def wordChar (c : Char) : Bool :=
  c.isAlpha || c.isDigit || c = '_'

/-- Maximal runs of characters satisfying p, in order, with an explicit
accumulator holding the current run reversed. -/
def runsAux (p : Char → Bool) : List Char → List Char → List (List Char)
  | [], acc => if acc.isEmpty then [] else [acc.reverse]
  | c :: cs, acc =>
    if p c then
      runsAux p cs (c :: acc)
    else if acc.isEmpty then
      runsAux p cs []
    else
      acc.reverse :: runsAux p cs []

/-- Maximal runs of word characters of a string. -/
def wordRuns (l : List Char) : List (List Char) :=
  runsAux wordChar l []

/-- Model of matching the global regular expression consisting of a word
boundary, three or more ASCII letters, and a word boundary.  A word
boundary holds exactly between a word character and a non-word character
or string edge, so the matches are precisely the maximal word-character
runs that consist solely of letters and have length at least 3 (a letter
run adjacent to a digit or underscore has no boundary there and is not
matched). -/
def regexWordMatches (l : List Char) : List (List Char) :=
  (wordRuns l).filter (fun r => r.all Char.isAlpha && decide (3 ≤ r.length))

/-- Model of String.prototype.toLowerCase for the ASCII alphabet. -/
def jsToLower (l : List Char) : List Char :=
  l.map Char.toLower

/-- The contentKeywords computation of the index builder: lower-case the
content, match the word-bounded letter regular expression globally, keep
the first 50 matches and join them with single spaces; the empty string
when there is no match. -/
def contentKeywords (content : String) : String :=
  let ms := regexWordMatches (jsToLower content.data)
  String.intercalate " " ((ms.take 50).map (fun r => (⟨r⟩ : String)))

/-- Model of the JavaScript logical-or default for an optional string
field: the empty string is falsy, so both a missing and an empty value
fall back to the default. -/
def jsOrString (o : Option String) (d : String) : String :=
  match o with
  | none => d
  | some s => if s = "" then d else s

/-- Document front-matter data, per the content collection schema:
title required, description optional, category an enumeration value kept
as a string, tags optional, lastUpdated an optional date modelled by its
ISO-8601 rendering. -/
structure DocData where
  title : String
  description : Option String
  category : String
  tags : Option (List String)
  lastUpdated : Option String
deriving DecidableEq

/-- A content-collection document: slug, raw markdown body (possibly
absent) and front-matter data. -/
structure Doc where
  slug : String
  body : Option String
  data : DocData
deriving DecidableEq

/-- A search record as built by the index builder. -/
structure SearchRecord where
  title : String
  description : String
  url : String
  app : String
  category : String
  tags : List String
  content : String
  excerpt : String
  keywords : String
  lastUpdated : Option String
deriving DecidableEq

/-- The content value of a document: its body with the logical-or default
of the empty string. -/
def contentOf (d : Doc) : String :=
  jsOrString d.body ""

/-- The excerpt of a document as the index builder computes it. -/
def excerptOf (d : Doc) : String :=
  ⟨excerptChars (contentOf d).data⟩

/-- The per-document mapping of the index builder: one search record per
document, mirroring the object literal of the searchIndex map. -/
def searchIndexRecord (d : Doc) : SearchRecord :=
  let content := contentOf d
  let excerpt := excerptOf d
  let app : List Char := (splitOnChar '/' d.slug.data).headD []
  { title := d.data.title
  , description := jsOrString d.data.description excerpt
  , url := "/" ++ d.slug
  , app := appName ⟨app⟩
  , category := d.data.category
  , tags := d.data.tags.getD []
  , content := content
  , excerpt := excerpt
  , keywords := contentKeywords content
  , lastUpdated := d.data.lastUpdated }

/-- The index builder: map every document to its search record. -/
def buildIndex (docs : List Doc) : List SearchRecord :=
  docs.map searchIndexRecord

/-- The fragment of JSON needed to describe the serialized index
artifact. -/
inductive Json where
  | str (s : String)
  | arr (xs : List Json)
  | null

/-- Serialization of a search record as an ordered list of key and value
pairs, mirroring the field order of the object literal; the optional date
serializes to its ISO-8601 string or to null. -/
def recordToJson (r : SearchRecord) : List (String × Json) :=
  [ ("title", Json.str r.title)
  , ("description", Json.str r.description)
  , ("url", Json.str r.url)
  , ("app", Json.str r.app)
  , ("category", Json.str r.category)
  , ("tags", Json.arr (r.tags.map Json.str))
  , ("content", Json.str r.content)
  , ("excerpt", Json.str r.excerpt)
  , ("keywords", Json.str r.keywords)
  , ("lastUpdated", match r.lastUpdated with
      | some s => Json.str s
      | none => Json.null) ]

/-- The keys of a serialized search record, in order. -/
def recordKeys (r : SearchRecord) : List String :=
  (recordToJson r).map Prod.fst

/-- A search record of the other builder copy in the snapshot (the one in
unnamed/part_004), which omits the keywords enhancement: its record
literal has no keywords field.  It serializes lastUpdated through
toISOString with a null default, modelled by the same optional ISO-8601
string. -/
structure SearchRecordV1 where
  title : String
  description : String
  url : String
  app : String
  category : String
  tags : List String
  content : String
  excerpt : String
  lastUpdated : Option String
deriving DecidableEq

/-- The per-document mapping of the builder copy without the keywords
enhancement; all shared fields are computed exactly as in
`searchIndexRecord`. -/
def searchIndexRecordV1 (d : Doc) : SearchRecordV1 :=
  let content := contentOf d
  let excerpt := excerptOf d
  let app : List Char := (splitOnChar '/' d.slug.data).headD []
  { title := d.data.title
  , description := jsOrString d.data.description excerpt
  , url := "/" ++ d.slug
  , app := appName ⟨app⟩
  , category := d.data.category
  , tags := d.data.tags.getD []
  , content := content
  , excerpt := excerpt
  , lastUpdated := d.data.lastUpdated }

/-- Serialization of a record of the builder copy without keywords,
mirroring the field order of its object literal. -/
def recordToJsonV1 (r : SearchRecordV1) : List (String × Json) :=
  [ ("title", Json.str r.title)
  , ("description", Json.str r.description)
  , ("url", Json.str r.url)
  , ("app", Json.str r.app)
  , ("category", Json.str r.category)
  , ("tags", Json.arr (r.tags.map Json.str))
  , ("content", Json.str r.content)
  , ("excerpt", Json.str r.excerpt)
  , ("lastUpdated", match r.lastUpdated with
      | some s => Json.str s
      | none => Json.null) ]

/-- The keys of a serialized record of the copy without keywords, in
order. -/
def recordKeysV1 (r : SearchRecordV1) : List String :=
  (recordToJsonV1 r).map Prod.fst

/-! ### Spec-side definitions

The following definitions transcribe the wording of the specification for
the refinement claims; they are to be compared with the definitions
embedded from the source above. -/

/-- Spec wording for the excerpt: the first 200 characters of the body,
with the hash sign, the asterisk and the backtick removed, surrounding
whitespace trimmed, and three dots appended unconditionally. -/
def excerptSpec (body : String) : String :=
  ⟨jsTrim (stripMarkup (body.data.take 200)) ++ "...".data⟩

/-- Spec wording for the application display name: the segment with the
dash replaced by spaces, and each of the resulting space-separated words
capitalized. -/
def dashToSpace (c : Char) : Char :=
  if c = '-' then ' ' else c

/-- Spec wording for the application display name, character level. -/
def appNameSpecChars (l : List Char) : List Char :=
  List.intercalate [' '] ((splitOnChar ' ' (l.map dashToSpace)).map capitalizeChars)

/-- Maximal runs of ASCII letters of a string. -/
def alphaRuns (l : List Char) : List (List Char) :=
  runsAux Char.isAlpha l []

/-- Spec wording for the keywords field: lower-case the body, extract all
maximal runs of 3 or more alphabetic characters, take the first 50 such
runs, and join them with single spaces. -/
def keywordsSpec (body : String) : String :=
  let ms := (alphaRuns (jsToLower body.data)).filter (fun r => decide (3 ≤ r.length))
  String.intercalate " " ((ms.take 50).map (fun r => (⟨r⟩ : String)))

/-- The amended keywords rule: lower-case the body, split it into maximal
runs of word characters, keep the runs that consist solely of letters and
have length at least 3, take the first 50 of them and join them with
single spaces. -/
def keywordsSpecAmended (body : String) : String :=
  let ms := (wordRuns (jsToLower body.data)).filter
      (fun r => r.all Char.isAlpha && decide (3 ≤ r.length))
  String.intercalate " " ((ms.take 50).map (fun r => (⟨r⟩ : String)))

/-- The key list asserted by the specification for a serialized search
record. -/
def specRecordKeys : List String :=
  ["title", "description", "url", "app", "category", "tags", "excerpt",
   "keywords", "lastUpdated"]

/-! ### The Search Client -/

/-- One searchable field of the match-engine configuration: field name
and relative weight.  Weights are the exact rational values of the
decimal literals in the source. -/
structure FuseKeyWeight where
  name : String
  weight : ℚ
deriving DecidableEq

/-- The match-engine options object handed to the Fuse constructor. -/
structure FuseOptions where
  keys : List FuseKeyWeight
  threshold : ℚ
  includeScore : Bool
  includeMatches : Bool
  minMatchCharLength : Nat
deriving DecidableEq

/-- The options literal of initializeSearch. -/
def fuseOptions : FuseOptions :=
  { keys :=
      [ ⟨"title", 0.3⟩
      , ⟨"tags", 0.25⟩
      , ⟨"description", 0.2⟩
      , ⟨"keywords", 0.1⟩
      , ⟨"app", 0.1⟩
      , ⟨"category", 0.05⟩ ]
  , threshold := 0.3
  , includeScore := true
  , includeMatches := true
  , minMatchCharLength := 2 }

/-- The constructed match engine: the loaded index together with the
options it was built with. -/
structure FuseEngine where
  index : List SearchRecord
  options : FuseOptions
deriving DecidableEq

/-- The module-level state of the Search Client: the fuse variable is
undefined until initialization succeeds. -/
structure ClientState where
  fuse : Option FuseEngine
deriving DecidableEq

/-- The state at page load, before initializeSearch runs. -/
def initialClientState : ClientState :=
  { fuse := none }

/-- The response of the index fetch: HTTP success flag, status code, and
the parse result of the body (none models a JSON parse failure). -/
structure FetchResponse where
  ok : Bool
  status : Nat
  body : Option (List SearchRecord)
deriving DecidableEq

/-- The body of the try block of initializeSearch: throw on a non-success
HTTP status, throw on a parse failure, otherwise construct the engine. -/
def initializeSearchBody (resp : FetchResponse) : Except String ClientState :=
  if resp.ok then
    match resp.body with
    | some idx => Except.ok { fuse := some { index := idx, options := fuseOptions } }
    | none => Except.error "parse error"
  else
    Except.error ("HTTP error! status: " ++ toString resp.status)

/-- initializeSearch: the surrounding try-catch consumes every thrown
error, logging it; on an error the module state is left unchanged.  The
returned flag records whether an error was logged.  Totality of this
function is the model of the guarantee that no exception escapes
initialization. -/
def initializeSearch (st : ClientState) (resp : FetchResponse) : ClientState × Bool :=
  match initializeSearchBody resp with
  | Except.ok st2 => (st2, false)
  | Except.error _ => (st, true)

/-- String wrapper for `jsTrim`. -/
def jsTrimStr (s : String) : String :=
  ⟨jsTrim s.data⟩

/-- The observable effect of one call of the search function: whether the
fuse engine was invoked, the query it was invoked with, and whether the
call left the results view hidden (hideResults) or visible
(displayResults, which unhides the view even for an empty result list). -/
structure SearchOutcome where
  engineInvoked : Bool
  engineQuery : Option String
  resultsHidden : Bool
deriving DecidableEq

/-- The search function of the Search Client: when the engine is missing
or the trimmed query is empty, hide the results and return; otherwise
invoke the engine with the query and display the results (the results
view is shown even when the engine returns no matches, rendering a
no-results message). -/
def search (st : ClientState) (query : String) : SearchOutcome :=
  match st.fuse with
  | none => { engineInvoked := false, engineQuery := none, resultsHidden := true }
  | some _ =>
    if jsTrimStr query = "" then
      { engineInvoked := false, engineQuery := none, resultsHidden := true }
    else
      { engineInvoked := true, engineQuery := some query, resultsHidden := false }

/-! ### The keystroke debounce timer -/

/-- The timer state of the input listener closure: the set of scheduled
timeout callbacks (timeout id paired with the query the callback
captured), the searchTimeout variable holding the id of the last
scheduled timeout (none before the first keystroke), and the next fresh
timeout id of the host. -/
structure TimerState where
  active : List (Nat × String)
  searchTimeout : Option Nat
  nextId : Nat
deriving DecidableEq

/-- The timer state at page load: nothing scheduled. -/
def initialTimerState : TimerState :=
  { active := [], searchTimeout := none, nextId := 0 }

/-- Model of clearTimeout: cancel the timeout with the given id if it is
still scheduled; clearTimeout of an undefined id is a no-op. -/
def clearTimeout (ts : TimerState) (id : Option Nat) : TimerState :=
  match id with
  | none => ts
  | some i => { ts with active := ts.active.filter (fun t => t.1 != i) }

/-- The input event listener: cancel the pending timeout recorded in
searchTimeout, then schedule a new 300 millisecond timeout whose callback
runs search with the current query, and record its id. -/
def handleInput (ts : TimerState) (q : String) : TimerState :=
  let ts1 := clearTimeout ts ts.searchTimeout
  { active := ts1.active ++ [(ts1.nextId, q)]
  , searchTimeout := some ts1.nextId
  , nextId := ts1.nextId + 1 }

/-- The queries that will be handed to the search function when the
debounce window elapses and the pending timeouts fire. -/
def firedQueries (ts : TimerState) : List String :=
  ts.active.map (fun t => t.2)

/-- The focus event listener result: whether a debounce timeout was
scheduled and, if the search function was called synchronously, its
outcome. -/
structure FocusOutcome where
  timerScheduled : Bool
  searchCall : Option SearchOutcome
deriving DecidableEq

/-- The focus event listener: when the trimmed input value is non-empty,
call search synchronously with the untrimmed current value; no timeout is
ever scheduled by this listener. -/
def handleFocus (st : ClientState) (value : String) : FocusOutcome :=
  if jsTrimStr value = "" then
    { timerScheduled := false, searchCall := none }
  else
    { timerScheduled := false, searchCall := some (search st value) }

/-! ### Sample documents used as concrete inputs -/

/-- A concrete well-formed document. -/
def sampleDoc : Doc :=
  { slug := "application-one/support"
  , body := some "hello body"
  , data :=
    { title := "Title"
    , description := some "Desc"
    , category := "support"
    , tags := some ["alpha"]
    , lastUpdated := none } }

/-- A concrete document whose body is a letter run followed by a digit;
the digit suppresses the word boundary after the letters. -/
def keywordDoc : Doc :=
  { slug := "application-one/support"
  , body := some "abc1"
  , data :=
    { title := "Title"
    , description := some "Desc"
    , category := "support"
    , tags := some []
    , lastUpdated := none } }

/-- A client state whose engine has been constructed. -/
def readyClientState : ClientState :=
  { fuse := some { index := [], options := fuseOptions } }

/-! ### Helper lemmas -/

/-- Splitting never yields the empty list of pieces. -/
theorem splitOnChar_ne_nil (sep : Char) (l : List Char) :
    splitOnChar sep l ≠ [] := by
  cases l with
  | nil => simp [splitOnChar]
  | cons c cs =>
    by_cases h : c = sep <;> simp [splitOnChar, h]

/-- Replacing the dash by a space and splitting on the space is the same
as splitting on the dash, provided the string holds no space of its
own. -/
theorem splitOnChar_map_dashToSpace (l : List Char) (h : ' ' ∉ l) :
    splitOnChar ' ' (l.map dashToSpace) = splitOnChar '-' l := by
  induction l with
  | nil => rfl
  | cons c cs ih =>
    rw [List.mem_cons, not_or] at h
    have ihcs := ih h.2
    by_cases hc : c = '-'
    · subst hc
      simp [splitOnChar, dashToSpace, ihcs]
    · have hfc : dashToSpace c = c := by simp [dashToSpace, hc]
      have hcs : ¬(c = ' ') := fun hh => h.1 hh.symm
      simp [splitOnChar, hfc, hc, hcs, ihcs]

/-- clearTimeout does not change the fresh-id counter. -/
theorem clearTimeout_nextId (ts : TimerState) (id : Option Nat) :
    (clearTimeout ts id).nextId = ts.nextId := by
  cases id <;> rfl

/-- The single-pending-timer invariant of the input listener: at most one
scheduled timeout, and every scheduled timeout is the one recorded in the
searchTimeout variable. -/
def TimerInv (ts : TimerState) : Prop :=
  ts.active.length ≤ 1 ∧ ∀ t ∈ ts.active, some t.1 = ts.searchTimeout

/-- Under the invariant, cancelling the recorded timeout cancels every
scheduled timeout. -/
theorem clear_pending_of_inv {ts : TimerState} (h : TimerInv ts) :
    (clearTimeout ts ts.searchTimeout).active = [] := by
  cases hid : ts.searchTimeout with
  | none =>
    cases hact : ts.active with
    | nil => simp [clearTimeout, hid, hact]
    | cons a as =>
      have hmem := h.2 a (by rw [hact]; exact List.mem_cons_self a as)
      rw [hid] at hmem
      exact absurd hmem (by simp)
  | some i =>
    simp only [clearTimeout, hid]
    rw [List.filter_eq_nil_iff]
    intro t ht
    have h2 := h.2 t ht
    rw [hid] at h2
    have ht1 : t.1 = i := by injection h2
    simp [ht1]

/-- One input event, starting from an invariant state: the new state
satisfies the invariant again and has exactly the newly scheduled timeout
pending, carrying the text of this keystroke. -/
theorem handleInput_inv {ts : TimerState} (h : TimerInv ts) (q : String) :
    TimerInv (handleInput ts q) ∧ (handleInput ts q).active = [(ts.nextId, q)] := by
  have hclear := clear_pending_of_inv h
  have hact : (handleInput ts q).active = [(ts.nextId, q)] := by
    simp [handleInput, hclear, clearTimeout_nextId]
  refine ⟨⟨?_, ?_⟩, hact⟩
  · rw [hact]; simp
  · intro t ht
    rw [hact] at ht
    simp only [List.mem_singleton] at ht
    subst ht
    simp [handleInput, clearTimeout_nextId]

/-- The invariant is preserved along any sequence of input events. -/
theorem foldl_handleInput_inv (qs : List String) {ts : TimerState}
    (h : TimerInv ts) : TimerInv (qs.foldl handleInput ts) := by
  induction qs generalizing ts with
  | nil => exact h
  | cons q qs ih => exact ih (handleInput_inv h q).1

/-- The initial timer state satisfies the invariant. -/
theorem timerInv_initial : TimerInv initialTimerState := by
  constructor <;> simp [initialTimerState]

/-! ### Claim theorems -/

/-- C1: for every document, the excerpt field built by the index builder
equals the first 200 characters of the document body (the empty string
for a missing body) with the hash sign, the asterisk and the backtick
removed, surrounding whitespace trimmed, and three dots appended; the
three-dot suffix is present unconditionally, in particular for bodies
shorter than 200 characters and for the empty body. -/
theorem excerpt_matches_spec (d : Doc) :
    (searchIndexRecord d).excerpt = excerptSpec (contentOf d) ∧
    "...".data <:+ (searchIndexRecord d).excerpt.data := by
  constructor
  · rfl
  · show "...".data <:+ excerptChars (contentOf d).data
    unfold excerptChars
    exact List.suffix_append _ _

/-- C2: the index builder produces exactly one search record per
document: the record list has the same length as the document list, so no
document is dropped. -/
theorem buildIndex_length (docs : List Doc) :
    (buildIndex docs).length = docs.length := by
  simp [buildIndex]

/-- C3 counterexample: on a client whose engine is constructed, the query
"a" has trimmed length 1, yet the search function invokes the match
engine with it and leaves the results view visible, contradicting the
claim that trimmed length 0 or 1 never invokes the engine and always
hides the results. -/
theorem short_query_invokes_engine :
    (jsTrimStr "a").length = 1 ∧
    search readyClientState "a" =
      { engineInvoked := true, engineQuery := some "a", resultsHidden := false } := by
  decide

/-- C3 amended: for every client state and every query whose trimmed form
is empty, the search function never invokes the match engine and always
hides the results view (a query of trimmed length 1 is not guarded: it
reaches the engine whenever the engine is constructed). -/
theorem trimmed_empty_query_hides (st : ClientState) (q : String)
    (h : jsTrimStr q = "") :
    (search st q).engineInvoked = false ∧ (search st q).resultsHidden = true := by
  cases hf : st.fuse with
  | none => simp [search, hf]
  | some e => simp [search, hf, h]

/-- Witness for the amended C3 theorem at a whitespace-only query. -/
theorem trimmed_empty_query_hides_witness :
    jsTrimStr "  " = "" ∧
    ((search initialClientState "  ").engineInvoked = false ∧
     (search initialClientState "  ").resultsHidden = true) :=
  ⟨by decide, trimmed_empty_query_hides initialClientState "  " (by decide)⟩

/-- C4 counterexample: the serialized record of a concrete document has a
content key, which is not among the keys asserted by the specification,
so its key list differs from the asserted one. -/
theorem record_keys_cex :
    "content" ∈ recordKeys (searchIndexRecord sampleDoc) ∧
    "content" ∉ specRecordKeys ∧
    recordKeys (searchIndexRecord sampleDoc) ≠ specRecordKeys := by
  refine ⟨?_, by decide, ?_⟩
  · show "content" ∈ ["title", "description", "url", "app", "category", "tags",
      "content", "excerpt", "keywords", "lastUpdated"]
    decide
  · intro hcontra
    have : ("content" : String) ∈ specRecordKeys := by
      rw [← hcontra]
      show "content" ∈ ["title", "description", "url", "app", "category", "tags",
        "content", "excerpt", "keywords", "lastUpdated"]
      decide
    exact absurd this (by decide)

/-- C4 amended: every serialized record has exactly the keys title,
description, url, app, category, tags, content, excerpt, optionally
keywords, and lastUpdated: the builder copy with the keywords enhancement
serializes the ten keys including keywords, the copy without it
serializes the nine keys without keywords, and erasing the optional
keywords key from the former yields exactly the key list of the latter;
in both copies the additional content key holds the full document
body. -/
theorem record_keys_amended (d : Doc) :
    recordKeys (searchIndexRecord d) =
      ["title", "description", "url", "app", "category", "tags", "content",
       "excerpt", "keywords", "lastUpdated"] ∧
    recordKeysV1 (searchIndexRecordV1 d) =
      ["title", "description", "url", "app", "category", "tags", "content",
       "excerpt", "lastUpdated"] ∧
    (recordKeys (searchIndexRecord d)).erase "keywords" =
      recordKeysV1 (searchIndexRecordV1 d) ∧
    List.lookup "content" (recordToJson (searchIndexRecord d)) =
      some (Json.str (contentOf d)) ∧
    List.lookup "content" (recordToJsonV1 (searchIndexRecordV1 d)) =
      some (Json.str (contentOf d)) :=
  ⟨rfl, rfl, rfl, rfl, rfl⟩

/-- C5 counterexample: for the document with body consisting of three
letters followed by a digit, the index builder computes an empty keywords
field, while the rule of the claim (all maximal runs of 3 or more
alphabetic characters) yields the three letters: the digit removes the
word boundary the regular expression requires after the letters. -/
theorem keywords_cex :
    (searchIndexRecord keywordDoc).keywords = "" ∧
    keywordsSpec (contentOf keywordDoc) = "abc" ∧
    (searchIndexRecord keywordDoc).keywords ≠ keywordsSpec (contentOf keywordDoc) := by
  decide

/-- C5 amended: the keywords field equals the amended rule: lower-case
the body, split it into maximal runs of word characters (letters, digits,
underscore), keep the runs that consist solely of letters and have length
at least 3, take the first 50 of them and join them with single
spaces. -/
theorem keywords_amended (d : Doc) :
    (searchIndexRecord d).keywords = keywordsSpecAmended (contentOf d) := rfl

/-- C6: for every application-name path segment (such segments hold no
space), the derived display name equals the segment with the dash
replaced by spaces and each resulting word capitalized; in particular the
segments application-one and application-two map to Application One and
Application Two. -/
theorem appName_matches_spec (l : List Char) (h : ' ' ∉ l) :
    appNameChars l = appNameSpecChars l ∧
    appName "application-one" = "Application One" ∧
    appName "application-two" = "Application Two" := by
  refine ⟨?_, by decide, by decide⟩
  unfold appNameChars appNameSpecChars
  rw [splitOnChar_map_dashToSpace l h]

/-- Witness for the C6 theorem at the segment application-one. -/
theorem appName_matches_spec_witness :
    (' ' ∉ "application-one".data) ∧
    (appNameChars "application-one".data = appNameSpecChars "application-one".data ∧
     appName "application-one" = "Application One" ∧
     appName "application-two" = "Application Two") :=
  ⟨by decide, appName_matches_spec "application-one".data (by decide)⟩

/-- C7 counterexample: the configured weights are not strictly
decreasing: the keywords field and the app field carry the same weight,
so the chain of strict inequalities asserted by the claim fails. -/
theorem fuse_weights_not_strictly_decreasing :
    fuseOptions.keys.map (fun k => k.name) =
      ["title", "tags", "description", "keywords", "app", "category"] ∧
    (fuseOptions.keys.map (fun k => k.weight)).get? 3 =
      (fuseOptions.keys.map (fun k => k.weight)).get? 4 ∧
    ¬ List.Chain' (fun a b : ℚ => a > b) (fuseOptions.keys.map (fun k => k.weight)) := by
  refine ⟨rfl, rfl, ?_⟩
  intro hch
  simp only [fuseOptions, List.map_cons, List.map_nil, List.chain'_cons,
    List.chain'_singleton, and_true] at hch
  norm_num at hch

/-- C7 amended: the weights are non-strictly decreasing in the order
title, tags, description, keywords, app, category; each consecutive pair
is strictly decreasing except keywords and app, which are equal. -/
theorem fuse_weights_amended :
    fuseOptions.keys.map (fun k => (k.name, k.weight)) =
      [("title", 0.3), ("tags", 0.25), ("description", 0.2),
       ("keywords", 0.1), ("app", 0.1), ("category", 0.05)] ∧
    List.Chain' (fun a b : ℚ => a ≥ b) (fuseOptions.keys.map (fun k => k.weight)) ∧
    ((0.3 : ℚ) > 0.25 ∧ (0.25 : ℚ) > 0.2 ∧ (0.2 : ℚ) > 0.1 ∧
     (0.1 : ℚ) = 0.1 ∧ (0.1 : ℚ) > 0.05) := by
  refine ⟨rfl, ?_, by norm_num⟩
  simp [fuseOptions, List.chain'_cons]
  norm_num

/-- C8: when the index fetch returns a non-success HTTP status, the
thrown error is caught inside initializeSearch (the call returns normally
with the error logged) and the client is left without an engine; every
subsequent query then produces no engine invocation and keeps the results
view hidden, and the search call also returns normally by totality. -/
theorem fetch_failure_no_results (resp : FetchResponse) (h : resp.ok = false) :
    initializeSearch initialClientState resp = (initialClientState, true) ∧
    ∀ q : String,
      (search (initializeSearch initialClientState resp).1 q).engineInvoked = false ∧
      (search (initializeSearch initialClientState resp).1 q).resultsHidden = true := by
  have hinit : initializeSearch initialClientState resp = (initialClientState, true) := by
    simp [initializeSearch, initializeSearchBody, h]
  refine ⟨hinit, fun q => ?_⟩
  rw [hinit]
  simp [search, initialClientState]

/-- Witness for the C8 theorem at an HTTP 500 response. -/
theorem fetch_failure_no_results_witness :
    (({ ok := false, status := 500, body := none } : FetchResponse).ok = false) ∧
    (initializeSearch initialClientState { ok := false, status := 500, body := none } =
       (initialClientState, true) ∧
     ∀ q : String,
       (search (initializeSearch initialClientState
           { ok := false, status := 500, body := none }).1 q).engineInvoked = false ∧
       (search (initializeSearch initialClientState
           { ok := false, status := 500, body := none }).1 q).resultsHidden = true) :=
  ⟨rfl, fetch_failure_no_results { ok := false, status := 500, body := none } rfl⟩

/-- C9: for any rapid sequence of keystrokes inside the debounce window
(no timer fires between the events), each event cancels the pending
timeout before scheduling a new one: after the whole sequence exactly the
final keystroke text is pending, so when the window elapses the match
engine is invoked exactly once, with the final text; moreover after any
event sequence from page load at most one timeout is pending. -/
theorem debounce_single_invocation (qs : List String) (q : String) :
    firedQueries ((qs ++ [q]).foldl handleInput initialTimerState) = [q] ∧
    ∀ p : List String, (p.foldl handleInput initialTimerState).active.length ≤ 1 := by
  constructor
  · rw [List.foldl_append]
    have hinv := foldl_handleInput_inv qs timerInv_initial
    have hact := (handleInput_inv hinv q).2
    simp [firedQueries, hact]
  · intro p
    exact (foldl_handleInput_inv p timerInv_initial).1

/-- C10: when the focus event fires on a constructed client while the
input holds a value whose trimmed form is non-empty, the listener calls
the search function synchronously, which invokes the match engine with
the untrimmed current value and shows the results view, and no debounce
timeout is scheduled. -/
theorem focus_query_immediate (st : ClientState) (v : String) (e : FuseEngine)
    (hf : st.fuse = some e) (hv : jsTrimStr v ≠ "") :
    (handleFocus st v).timerScheduled = false ∧
    (handleFocus st v).searchCall =
      some { engineInvoked := true, engineQuery := some v, resultsHidden := false } := by
  simp [handleFocus, hv, search, hf]

/-- Witness for the C10 theorem at a ready client and the value docs. -/
theorem focus_query_immediate_witness :
    readyClientState.fuse = some { index := [], options := fuseOptions } ∧
    jsTrimStr "docs" ≠ "" ∧
    ((handleFocus readyClientState "docs").timerScheduled = false ∧
     (handleFocus readyClientState "docs").searchCall =
       some { engineInvoked := true, engineQuery := some "docs", resultsHidden := false }) :=
  ⟨rfl, by decide,
   focus_query_immediate readyClientState "docs" { index := [], options := fuseOptions }
     rfl (by decide)⟩

end ProductTree
